import Mathlib

/-!
Verification of the coffee-shop point-of-sale backend (src/coffee-shop/app.py)
against its natural-language specification.

The embedding models the SQLite-backed state as a `Store` value: the
`menu_items` table is a list of `MenuItem` rows (the `id INTEGER PRIMARY KEY
AUTOINCREMENT` column is modelled by `nextMenuId`), and the `orders` table a
list of `OrderRec` rows.  SQLite `REAL` prices and order totals are modelled
as rationals; `INTEGER` inventory as `Int` (the schema places no lower bound
on it).  JSON request values are modelled by `JVal`; Python's `int(...)` and
`float(...)` conversions by `pyInt` / `pyFloat`.  Request bodies carry
`Option` fields: `none` means the key is absent from the JSON object.
`name` fields are modelled as optional strings (a JSON string, or absent /
null, the cases the specification discusses).
-/

/-- A row of the `menu_items` table. -/
structure MenuItem where
  id : Int
  name : String
  price : ℚ
  inventory : Int
deriving Repr, DecidableEq

/-- A row of the `orders` table.  The `items` column stores the submitted id
sequence (comma-joined text in SQLite); it is modelled as the id list, the
empty string corresponding to `[]`.  `created_at` carries no logic and is
omitted. -/
structure OrderRec where
  id : Nat
  customer_name : String
  items : List Int
  total : ℚ
deriving Repr, DecidableEq

/-- The persistent store: both tables plus their autoincrement counters. -/
structure Store where
  menu : List MenuItem
  nextMenuId : Int
  orders : List OrderRec
  nextOrderId : Nat
deriving Repr, DecidableEq

/-- JSON values as delivered by `request.get_json()` (objects are omitted:
no claim involves a nested object value). -/
inductive JVal where
  | jnull
  | jbool (b : Bool)
  | jint (n : Int)
  | jnum (q : ℚ)
  | jstr (s : String)
  | jlist (l : List JVal)

/-- Numeric value of a list of decimal digit characters. -/
def digitsToNat (ds : List Char) : Nat :=
  ds.foldl (fun acc c => acc * 10 + (c.toNat - 48)) 0

/-- ASCII whitespace, as stripped by Python numeric conversions (the rarer
whitespace code points are not modelled). -/
def isSpaceChar (c : Char) : Bool :=
  c = ' ' ∨ c = '\t' ∨ c = '\n' ∨ c = '\r'

/-- Strip whitespace from both ends of a character list. -/
def stripChars (cs : List Char) : List Char :=
  ((cs.dropWhile isSpaceChar).reverse.dropWhile isSpaceChar).reverse

/-- Python `int(s)` on a string: optional surrounding whitespace, an optional
sign, then decimal digits (digit-group underscores are not modelled; no claim
involves them). -/
def pyStrToInt (s : String) : Option Int :=
  match stripChars s.toList with
  | [] => none
  | c :: rest =>
    let p : Bool × List Char :=
      if c = '-' then (true, rest)
      else if c = '+' then (false, rest)
      else (false, c :: rest)
    if p.2 ≠ [] ∧ p.2.all Char.isDigit then
      some (if p.1 then -(digitsToNat p.2 : Int) else (digitsToNat p.2 : Int))
    else none

/-- Python `float(s)` on a string: optional whitespace and sign, then
`digits`, `digits.digits`, `digits.` or `.digits` (exponents and the
inf/nan spellings are not modelled; no claim involves them). -/
def pyStrToRat (s : String) : Option ℚ :=
  match stripChars s.toList with
  | [] => none
  | c :: rest =>
    let p : Bool × List Char :=
      if c = '-' then (true, rest)
      else if c = '+' then (false, rest)
      else (false, c :: rest)
    let intPart := p.2.takeWhile Char.isDigit
    let tail := p.2.dropWhile Char.isDigit
    let val : Option ℚ :=
      match tail with
      | [] => if intPart ≠ [] then some (digitsToNat intPart : ℚ) else none
      | '.' :: frac =>
        if (intPart ≠ [] ∨ frac ≠ []) ∧ frac.all Char.isDigit then
          some ((digitsToNat intPart : ℚ) +
            (digitsToNat frac : ℚ) / ((10 : ℚ) ^ frac.length))
        else none
      | _ => none
    val.map (fun q => if p.1 then -q else q)

/-- Truncation of a rational toward zero, the behaviour of Python `int` on a
float. -/
def ratTrunc (q : ℚ) : Int :=
  q.num.tdiv (q.den : Int)

/-- Python `int(v)` on a JSON value: ints pass through, booleans become 0/1,
floats truncate toward zero, strings are parsed; null and lists raise
(`none`). -/
def pyInt : JVal → Option Int
  | .jint n => some n
  | .jbool b => some (if b then 1 else 0)
  | .jnum q => some (ratTrunc q)
  | .jstr s => pyStrToInt s
  | _ => none

/-- Python `float(v)` on a JSON value: ints and floats pass through, booleans
become 0/1, strings are parsed; null and lists raise (`none`). -/
def pyFloat : JVal → Option ℚ
  | .jint n => some n
  | .jbool b => some (if b then 1 else 0)
  | .jnum q => some q
  | .jstr s => pyStrToRat s
  | _ => none

/-- `SELECT ... FROM menu_items WHERE id = ?` / the id-keyed dictionaries
built in `api_orders` (ids are unique under the `INTEGER PRIMARY KEY`
schema, so first match is the row). -/
def findItem (menu : List MenuItem) (i : Int) : Option MenuItem :=
  menu.find? (fun it => it.id == i)

/-- The default catalog seeded by `init_db` when `menu_items` is empty. -/
def seedMenu (startId : Int) : List MenuItem :=
  [⟨startId, "Espresso", 5/2, 20⟩,
   ⟨startId + 1, "Latte", 7/2, 15⟩,
   ⟨startId + 2, "Cappuccino", 3, 15⟩,
   ⟨startId + 3, "Tea", 2, 25⟩]

/-- `init_db`: ensure schema (modelled as always present) and seed the
default menu when `menu_items` is empty. -/
def init_db (s : Store) : Store :=
  if s.menu.isEmpty then
    { s with menu := s.menu ++ seedMenu s.nextMenuId,
             nextMenuId := s.nextMenuId + 4 }
  else s

/-- Body of `POST /api/menu`: `name` (string or absent/null), optional
`price` and `inventory` JSON values (`none` = key absent, in which case the
code uses `data.get(key, 0)`). -/
structure CreateReq where
  name : Option String
  price : Option JVal
  inventory : Option JVal

inductive CreateResult where
  | ok (item : MenuItem)
  | errInvalidPrice
  | errInvalidInventory
  | errNameRequired
deriving Repr, DecidableEq

/-- `POST /api/menu` (the create branch of `api_menu`): parse
`float(data.get('price', 0))` and `int(data.get('inventory', 0))`, reject a
falsy name, then insert and return the created row. -/
def api_menu_post (s : Store) (req : CreateReq) : Store × CreateResult :=
  match pyFloat (req.price.getD (.jint 0)) with
  | none => (s, .errInvalidPrice)
  | some price =>
    match pyInt (req.inventory.getD (.jint 0)) with
    | none => (s, .errInvalidInventory)
    | some inv =>
      match req.name with
      | none => (s, .errNameRequired)
      | some nm =>
        if nm = "" then (s, .errNameRequired)
        else
          let item : MenuItem := ⟨s.nextMenuId, nm, price, inv⟩
          ({ s with menu := s.menu ++ [item], nextMenuId := s.nextMenuId + 1 },
           .ok item)

/-- Body of `PUT /api/menu/{id}`: each field is `none` when the key is
absent (for `price`/`inventory`, `some .jnull` is a present null, which the
code also treats as "no update" via its `is not None` guards). -/
structure UpdateReq where
  name : Option String
  price : Option JVal
  inventory : Option JVal

inductive UpdateResult where
  | ok (item : MenuItem)
  | errInvalidPrice
  | errInvalidInventory
  | errNoFields
  | errNotFound
deriving Repr, DecidableEq

/-- `price = float(price) if price is not None else None` (and likewise for
`int`): `some none` = field not supplied, `some (some a)` = parsed value,
`none` = present but unparseable (the 400 case). -/
def parseOptField {α : Type} (f : JVal → Option α) : Option JVal → Option (Option α)
  | none => some none
  | some .jnull => some none
  | some v =>
    match f v with
    | none => none
    | some a => some (some a)

/-- `PUT /api/menu/{id}` (the update branch of `api_menu_item`): parse the
optional fields, reject an empty field set, apply the `UPDATE ... WHERE id`
statement, then re-select the row (404 when absent). -/
def api_menu_put (s : Store) (itemId : Int) (req : UpdateReq) : Store × UpdateResult :=
  match parseOptField pyFloat req.price with
  | none => (s, .errInvalidPrice)
  | some priceOpt =>
    match parseOptField pyInt req.inventory with
    | none => (s, .errInvalidInventory)
    | some invOpt =>
      if req.name = none ∧ priceOpt = none ∧ invOpt = none then
        (s, .errNoFields)
      else
        let menu2 := s.menu.map fun it =>
          if it.id = itemId then
            { it with name := req.name.getD it.name,
                      price := priceOpt.getD it.price,
                      inventory := invOpt.getD it.inventory }
          else it
        let s2 : Store := { s with menu := menu2 }
        match findItem menu2 itemId with
        | none => (s2, .errNotFound)
        | some row => (s2, .ok row)

inductive DeleteResult where
  | okDeleted
  | errNotFound
deriving Repr, DecidableEq

/-- `DELETE /api/menu/{id}` (the delete branch of `api_menu_item`). -/
def api_menu_delete (s : Store) (itemId : Int) : Store × DeleteResult :=
  match findItem s.menu itemId with
  | none => (s, .errNotFound)
  | some _ =>
    ({ s with menu := s.menu.filter (fun it => ¬ it.id = itemId) }, .okDeleted)

/-- One entry of the `details` list of an `insufficient_inventory`
response: `'Item id {id} not found'` or `'{name} (id {id}) only {inv} left'`. -/
inductive ErrDetail where
  | notFound (id : Int)
  | insufficientStock (name : String) (id : Int) (left : Int)
deriving Repr, DecidableEq

/-- The menu item id an error detail entry is about. -/
def detailId : ErrDetail → Int
  | .notFound i => i
  | .insufficientStock _ i _ => i

inductive OrderResult where
  | ok (total : ℚ)
  | errItemsNotList
  | errItemsNotInts
  | errInsufficient (details : List ErrDetail)
deriving Repr, DecidableEq

/-- `[int(i) for i in items]` under `try/except`: `none` when any element
raises. -/
def pyIntList : List JVal → Option (List Int)
  | [] => some []
  | v :: rest =>
    match pyInt v with
    | none => none
    | some n =>
      match pyIntList rest with
      | none => none
      | some ns => some (n :: ns)

/-- The distinct elements of a list in order of first occurrence: the key
order of `collections.Counter` (insertion-ordered dict). -/
def firstOccurrences : List Int → List Int
  | [] => []
  | i :: rest => i :: firstOccurrences (rest.filter (fun j => decide (j ≠ i)))
termination_by l => l.length
decreasing_by
  simp only [List.length_cons]
  exact Nat.lt_succ_of_le (List.length_filter_le _ rest)

/-- `Counter(items).items()`: each distinct id, in first-occurrence order,
with its multiplicity. -/
def orderCounts (items : List Int) : List (Int × Nat) :=
  (firstOccurrences items).map (fun i => (i, items.count i))

/-- The validation loop of `api_orders`: collect an error entry for every
unknown id and every id whose inventory is below its requested quantity. -/
def orderInsufficient (menu : List MenuItem) (counts : List (Int × Nat)) :
    List ErrDetail :=
  counts.filterMap fun p =>
    match findItem menu p.1 with
    | none => some (.notFound p.1)
    | some it =>
      if it.inventory < (p.2 : Int) then
        some (.insufficientStock it.name p.1 it.inventory)
      else none

/-- `prices.get(item_id, 0)`. -/
def priceOf (menu : List MenuItem) (i : Int) : ℚ :=
  ((findItem menu i).map MenuItem.price).getD 0

/-- The `total += prices.get(item_id, 0) * qty` accumulation loop. -/
def orderTotal (menu : List MenuItem) (counts : List (Int × Nat)) : ℚ :=
  counts.foldl (fun t p => t + priceOf menu p.1 * (p.2 : ℚ)) 0

/-- The `UPDATE menu_items SET inventory = inventory - ? WHERE id = ?` loop:
each relative decrement applied in turn to the current table. -/
def applyDecrements (menu : List MenuItem) (counts : List (Int × Nat)) :
    List MenuItem :=
  counts.foldl
    (fun m p => m.map fun it =>
      if it.id = p.1 then { it with inventory := it.inventory - (p.2 : Int) }
      else it)
    menu

/-- The read-and-validate phase of order placement: the `SELECT` snapshot
plus the validation loop, with no writes. -/
def orderCheck (menu : List MenuItem) (items : List Int) : List ErrDetail :=
  orderInsufficient menu (orderCounts items)

/-- The write phase of order placement: totals are computed from the prices
read in the snapshot (`snapMenu`), while the relative `UPDATE ... SET
inventory = inventory - ?` decrements and the order `INSERT` apply to the
store current at commit time. -/
def orderCommit (snapMenu : List MenuItem) (s : Store) (name : String)
    (items : List Int) : Store × ℚ :=
  let counts := orderCounts items
  let total := orderTotal snapMenu counts
  ({ s with menu := applyDecrements s.menu counts,
            orders := s.orders ++ [⟨s.nextOrderId, name, items, total⟩],
            nextOrderId := s.nextOrderId + 1 },
   total)

/-- `POST /api/orders` (the create branch of `api_orders`), run to
completion without interleaving: reject a non-list `items`, accept an empty
list as a zero-total order, normalise entries through `int(...)`, validate
against the snapshot and, when validation passes, commit. -/
def placeOrder (s : Store) (name : String) (itemsJ : JVal) : Store × OrderResult :=
  match itemsJ with
  | .jlist itemsRaw =>
    if itemsRaw.isEmpty then
      ({ s with orders := s.orders ++ [⟨s.nextOrderId, name, [], 0⟩],
                nextOrderId := s.nextOrderId + 1 },
       .ok 0)
    else
      match pyIntList itemsRaw with
      | none => (s, .errItemsNotInts)
      | some items =>
        match orderCheck s.menu items with
        | [] =>
          let r := orderCommit s.menu s name items
          (r.1, .ok r.2)
        | d :: ds => (s, .errInsufficient (d :: ds))
  | _ => (s, .errItemsNotList)

/-- `GET /api/inventory-alert`: rows with `inventory <= threshold`. -/
def inventoryAlert (s : Store) (threshold : Int) : List MenuItem :=
  s.menu.filter (fun it => it.inventory ≤ threshold)

/-- The data-model invariant: every stored menu item has a non-empty name. -/
def namesNonempty (s : Store) : Prop :=
  ∀ it ∈ s.menu, it.name ≠ ""

/-- Total quantity that a counts list requests for a given id. -/
def qtySum (i : Int) : List (Int × Nat) → Nat
  | [] => 0
  | p :: rest => (if i = p.1 then p.2 else 0) + qtySum i rest

/-- An id is offending for a request when it is unknown to the menu or its
inventory is strictly below its requested multiplicity — the two conditions
the validation loop reports. -/
def offendingB (menu : List MenuItem) (items : List Int) (i : Int) : Bool :=
  match findItem menu i with
  | none => true
  | some it => decide (it.inventory < (items.count i : Int))

/-- A one-item store used for concrete witnesses: the menu holds Espresso
(id 1, price 2.50, inventory 20) and no orders were placed yet. -/
def exampleStore : Store :=
  ⟨[⟨1, "Espresso", 5/2, 20⟩], 2, [], 1⟩

/-- A store whose single menu item has exactly one unit left, the situation
of the concurrent-order requirement. -/
def lastUnitStore : Store :=
  ⟨[⟨1, "Espresso", 5/2, 1⟩], 2, [], 1⟩

/-! ### Helper lemmas -/

theorem MenuItem.eta (it : MenuItem) :
    MenuItem.mk it.id it.name it.price it.inventory = it := rfl

theorem mem_firstOccurrences (a : Int) : ∀ l : List Int,
    a ∈ firstOccurrences l ↔ a ∈ l
  | [] => by simp [firstOccurrences]
  | i :: rest => by
    rw [firstOccurrences]
    by_cases h : a = i
    · subst h; simp
    · simp only [List.mem_cons, h, false_or]
      rw [mem_firstOccurrences a (rest.filter (fun j => decide (j ≠ i)))]
      simp [List.mem_filter, h]
termination_by l => l.length
decreasing_by
  simp only [List.length_cons]
  exact Nat.lt_succ_of_le (List.length_filter_le _ rest)

theorem firstOccurrences_nodup : ∀ l : List Int, (firstOccurrences l).Nodup
  | [] => by simp [firstOccurrences]
  | i :: rest => by
    rw [firstOccurrences]
    refine List.nodup_cons.mpr ⟨?_, firstOccurrences_nodup _⟩
    intro hmem
    rw [mem_firstOccurrences] at hmem
    simp [List.mem_filter] at hmem
termination_by l => l.length
decreasing_by
  simp only [List.length_cons]
  exact Nat.lt_succ_of_le (List.length_filter_le _ rest)

theorem qtySum_map_of_nodup (i : Int) (f : Int → Nat) :
    ∀ l : List Int, l.Nodup →
      qtySum i (l.map (fun j => (j, f j))) = if i ∈ l then f i else 0
  | [], _ => by simp [qtySum]
  | j :: rest, h => by
    obtain ⟨hj, hrest⟩ := List.nodup_cons.mp h
    rw [List.map_cons]
    rw [qtySum]
    rw [qtySum_map_of_nodup i f rest hrest]
    by_cases hij : i = j
    · subst hij
      simp [hj]
    · simp [hij, Ne.symm hij]

theorem qtySum_orderCounts (items : List Int) (i : Int) :
    qtySum i (orderCounts items) = items.count i := by
  rw [orderCounts, qtySum_map_of_nodup i _ _ (firstOccurrences_nodup items)]
  by_cases h : i ∈ items
  · simp [mem_firstOccurrences, h]
  · simp [mem_firstOccurrences, h, List.count_eq_zero_of_not_mem h]

theorem applyDecrements_eq (counts : List (Int × Nat)) :
    ∀ menu : List MenuItem,
      applyDecrements menu counts =
        menu.map (fun it =>
          { it with inventory := it.inventory - (qtySum it.id counts : Int) }) := by
  induction counts with
  | nil =>
    intro menu
    simp only [applyDecrements, List.foldl_nil, qtySum, Nat.cast_zero, sub_zero]
    rw [List.map_congr_left (fun it _ => MenuItem.eta it)]
    simp
  | cons p rest ih =>
    intro menu
    simp only [applyDecrements, List.foldl_cons] at *
    rw [ih, List.map_map]
    refine List.map_congr_left (fun it _ => ?_)
    obtain ⟨iid, inm, ipr, iinv⟩ := it
    simp only [Function.comp_apply, qtySum]
    by_cases h : iid = p.1
    · simp [h, sub_sub]
    · simp [h]

theorem orderTotal_foldl (menu : List MenuItem) :
    ∀ (counts : List (Int × Nat)) (a : ℚ),
      counts.foldl (fun t p => t + priceOf menu p.1 * (p.2 : ℚ)) a =
        a + (counts.map (fun p => priceOf menu p.1 * (p.2 : ℚ))).sum
  | [], a => by simp
  | p :: rest, a => by
    simp only [List.foldl_cons, List.map_cons, List.sum_cons]
    rw [orderTotal_foldl menu rest]
    ring

theorem orderTotal_eq (menu : List MenuItem) (items : List Int) :
    orderTotal menu (orderCounts items) =
      ((firstOccurrences items).map
        (fun i => priceOf menu i * (items.count i : ℚ))).sum := by
  rw [orderTotal, orderTotal_foldl, zero_add, orderCounts, List.map_map]
  rfl

theorem findItem_eq_some (menu : List MenuItem) (i : Int) (it : MenuItem)
    (h : findItem menu i = some it) : it ∈ menu ∧ it.id = i := by
  refine ⟨List.mem_of_find?_eq_some h, ?_⟩
  have := List.find?_some h
  simpa using this

theorem findItem_of_mem_nodup (menu : List MenuItem) (it : MenuItem)
    (hnodup : (menu.map MenuItem.id).Nodup) (hmem : it ∈ menu) :
    findItem menu it.id = some it := by
  induction menu with
  | nil => simp at hmem
  | cons x rest ih =>
    simp only [List.map_cons, List.nodup_cons] at hnodup
    rcases List.mem_cons.mp hmem with h | h
    · subst h
      rw [findItem, List.find?_cons_of_pos _ (by simp)]
    · have hne : (x.id == it.id) = false := by
        simp only [beq_eq_false_iff_ne, ne_eq]
        intro heq
        have hmm : it.id ∈ rest.map MenuItem.id := List.mem_map.mpr ⟨it, h, rfl⟩
        exact hnodup.1 (heq.symm ▸ hmm)
      rw [findItem]
      simp only [List.find?_cons, hne]
      exact ih hnodup.2 h

theorem pyIntList_map_jint : ∀ l : List Int, pyIntList (l.map .jint) = some l
  | [] => rfl
  | i :: rest => by
    simp only [List.map_cons, pyIntList, pyInt]
    rw [pyIntList_map_jint rest]

theorem pyIntList_eq_none (l : List JVal) (x : JVal) (hx : x ∈ l)
    (hnone : pyInt x = none) : pyIntList l = none := by
  induction l with
  | nil => simp at hx
  | cons v rest ih =>
    rcases List.mem_cons.mp hx with h | h
    · subst h; simp [pyIntList, hnone]
    · rw [pyIntList]
      cases hv : pyInt v with
      | none => rfl
      | some n => rw [ih h]

theorem placeOrder_success (s : Store) (nm : String) (items : List Int)
    (hne : items ≠ [])
    (hchk : orderCheck s.menu items = []) :
    placeOrder s nm (.jlist (items.map .jint)) =
      ({ s with
          menu := s.menu.map (fun it =>
            { it with inventory := it.inventory - (items.count it.id : Int) }),
          orders := s.orders ++
            [⟨s.nextOrderId, nm, items, orderTotal s.menu (orderCounts items)⟩],
          nextOrderId := s.nextOrderId + 1 },
       .ok (orderTotal s.menu (orderCounts items))) := by
  have hraw : (items.map JVal.jint).isEmpty = false := by
    cases items with
    | nil => exact absurd rfl hne
    | cons a l => rfl
  rw [placeOrder]
  rw [hraw]
  simp only [Bool.false_eq_true, if_false, pyIntList_map_jint, hchk]
  rw [orderCommit]
  simp only [applyDecrements_eq, qtySum_orderCounts]

/-- C1: placing an order whose items form a non-empty list of known menu
item ids, each with inventory at least its multiplicity in the list,
decrements every referenced item's inventory by exactly its requested
quantity (and count 0, i.e. no change, for unreferenced items), inserts
exactly one order holding the originally submitted id sequence, and
succeeds with total the sum over distinct ids of price times quantity. -/
theorem order_success_decrements_and_records (s : Store) (nm : String)
    (items : List Int)
    (hnodup : (s.menu.map MenuItem.id).Nodup)
    (hne : items ≠ [])
    (havail : ∀ i ∈ items, ∃ it ∈ s.menu,
      it.id = i ∧ (items.count i : Int) ≤ it.inventory) :
    placeOrder s nm (.jlist (items.map .jint)) =
      ({ s with
          menu := s.menu.map (fun it =>
            { it with inventory := it.inventory - (items.count it.id : Int) }),
          orders := s.orders ++
            [⟨s.nextOrderId, nm, items,
              ((firstOccurrences items).map
                (fun i => priceOf s.menu i * (items.count i : ℚ))).sum⟩],
          nextOrderId := s.nextOrderId + 1 },
       .ok (((firstOccurrences items).map
              (fun i => priceOf s.menu i * (items.count i : ℚ))).sum)) := by
  have hchk : orderCheck s.menu items = [] := by
    rw [orderCheck, orderInsufficient, List.filterMap_eq_nil_iff]
    intro p hp
    rw [orderCounts] at hp
    obtain ⟨i, hi, rfl⟩ := List.mem_map.mp hp
    rw [mem_firstOccurrences] at hi
    obtain ⟨it, hmem, hid, hinv⟩ := havail i hi
    have hfind : findItem s.menu i = some it := by
      rw [← hid]
      exact findItem_of_mem_nodup s.menu it hnodup hmem
    simp [hfind, not_lt.mpr hinv]
  rw [placeOrder_success s nm items hne hchk, orderTotal_eq]

theorem order_success_decrements_and_records_witness :
    ((exampleStore.menu.map MenuItem.id).Nodup ∧
      ([1, 1, 1] : List Int) ≠ [] ∧
      (∀ i ∈ ([1, 1, 1] : List Int), ∃ it ∈ exampleStore.menu,
        it.id = i ∧ ((([1, 1, 1] : List Int).count i : Int) ≤ it.inventory))) ∧
    placeOrder exampleStore "Guest" (.jlist (([1, 1, 1] : List Int).map .jint)) =
      (⟨[⟨1, "Espresso", 5/2, 17⟩], 2, [⟨1, "Guest", [1, 1, 1], 15/2⟩], 2⟩,
       .ok (15/2)) :=
  ⟨⟨by decide, by decide, by decide⟩,
    (order_success_decrements_and_records exampleStore "Guest" [1, 1, 1]
      (by decide) (by decide) (by decide)).trans
      (by norm_num [exampleStore, firstOccurrences, priceOf, findItem])⟩

/-- C3: the Schema/Seed Initializer is idempotent on the menu catalog —
running it twice yields the very menu running it once yields; on an empty
catalog it inserts exactly the four default items (Espresso 2.50/20,
Latte 3.50/15, Cappuccino 3.00/15, Tea 2.00/25) and on a non-empty catalog
it inserts nothing. -/
theorem init_db_idempotent_and_seeds (s : Store) :
    (init_db (init_db s)).menu = (init_db s).menu ∧
    (s.menu = [] → (init_db s).menu =
      [⟨s.nextMenuId, "Espresso", 5/2, 20⟩,
       ⟨s.nextMenuId + 1, "Latte", 7/2, 15⟩,
       ⟨s.nextMenuId + 2, "Cappuccino", 3, 15⟩,
       ⟨s.nextMenuId + 3, "Tea", 2, 25⟩]) ∧
    (s.menu ≠ [] → (init_db s).menu = s.menu) := by
  obtain ⟨menu, nmid, ords, noid⟩ := s
  cases menu with
  | nil => exact ⟨rfl, fun _ => rfl, fun h => absurd rfl h⟩
  | cons x rest => exact ⟨rfl, fun h => List.noConfusion h, fun _ => rfl⟩

theorem init_db_idempotent_and_seeds_witness :
    ((init_db (init_db (⟨[], 1, [], 1⟩ : Store))).menu =
        (init_db (⟨[], 1, [], 1⟩ : Store)).menu ∧
      (init_db (⟨[], 1, [], 1⟩ : Store)).menu =
        [⟨1, "Espresso", 5/2, 20⟩, ⟨2, "Latte", 7/2, 15⟩,
         ⟨3, "Cappuccino", 3, 15⟩, ⟨4, "Tea", 2, 25⟩]) ∧
    (init_db exampleStore).menu = exampleStore.menu :=
  ⟨⟨(init_db_idempotent_and_seeds ⟨[], 1, [], 1⟩).1,
    ((init_db_idempotent_and_seeds ⟨[], 1, [], 1⟩).2.1 rfl).trans (by norm_num)⟩,
   (init_db_idempotent_and_seeds exampleStore).2.2 (by decide)⟩

/-- C8: an order whose items value is the empty list succeeds with total 0,
inserts exactly one order record with an empty stored item list, and leaves
the menu (in particular every inventory) unchanged. -/
theorem order_empty_items_succeeds (s : Store) (nm : String) :
    placeOrder s nm (.jlist []) =
      ({ s with orders := s.orders ++ [⟨s.nextOrderId, nm, [], 0⟩],
                nextOrderId := s.nextOrderId + 1 },
       .ok 0) := rfl

theorem map_filterMap_sublist {α β γ : Type} (f : α → Option β) (g : β → γ)
    (h : α → γ) (hfg : ∀ a b, f a = some b → g b = h a) :
    ∀ l : List α, ((l.filterMap f).map g).Sublist (l.map h)
  | [] => List.Sublist.refl _
  | a :: l => by
    rw [List.filterMap_cons, List.map_cons]
    cases hfa : f a with
    | none => exact (map_filterMap_sublist f g h hfg l).cons _
    | some b =>
      rw [List.map_cons, hfg a b hfa]
      exact (map_filterMap_sublist f g h hfg l).cons₂ _

/-- C2: an order in which some requested id is unknown or has inventory
below its multiplicity is aborted whole — the store (inventories and
orders) is returned unchanged — with an insufficient-inventory error whose
details carry exactly one entry per offending id, covering every offending
id and only those. -/
theorem order_insufficient_aborts_and_reports (s : Store) (nm : String)
    (items : List Int)
    (hbad : ∃ i ∈ items, offendingB s.menu items i = true) :
    ∃ ds, placeOrder s nm (.jlist (items.map .jint)) = (s, .errInsufficient ds) ∧
      ds ≠ [] ∧ (ds.map detailId).Nodup ∧
      (∀ i : Int, (i ∈ items ∧ offendingB s.menu items i = true) ↔
        ∃ d ∈ ds, detailId d = i) := by
  have mk_detail : ∀ i : Int, i ∈ items → offendingB s.menu items i = true →
      ∃ d ∈ orderCheck s.menu items, detailId d = i := by
    intro i hi hoff
    have hp : (i, items.count i) ∈ orderCounts items :=
      List.mem_map.mpr ⟨i, (mem_firstOccurrences i items).mpr hi, rfl⟩
    rw [orderCheck, orderInsufficient]
    cases hfind : findItem s.menu i with
    | none =>
      refine ⟨.notFound i, List.mem_filterMap.mpr ⟨(i, items.count i), hp, ?_⟩, rfl⟩
      simp [hfind]
    | some it =>
      simp only [offendingB, hfind, decide_eq_true_eq] at hoff
      refine ⟨.insufficientStock it.name i it.inventory,
        List.mem_filterMap.mpr ⟨(i, items.count i), hp, ?_⟩, rfl⟩
      simp [hfind, hoff]
  have from_detail : ∀ d : ErrDetail, d ∈ orderCheck s.menu items →
      detailId d ∈ items ∧ offendingB s.menu items (detailId d) = true := by
    intro d hd
    rw [orderCheck, orderInsufficient] at hd
    obtain ⟨p, hp, hfp⟩ := List.mem_filterMap.mp hd
    rw [orderCounts] at hp
    obtain ⟨j, hj, rfl⟩ := List.mem_map.mp hp
    rw [mem_firstOccurrences] at hj
    dsimp only at hfp
    cases hfind : findItem s.menu j with
    | none =>
      rw [hfind] at hfp
      rw [Option.some_inj] at hfp
      subst hfp
      exact ⟨hj, by simp [offendingB, hfind, detailId]⟩
    | some it =>
      rw [hfind] at hfp
      dsimp only at hfp
      by_cases hlt : it.inventory < (items.count j : Int)
      · rw [if_pos hlt] at hfp
        rw [Option.some_inj] at hfp
        subst hfp
        exact ⟨hj, by simp [offendingB, hfind, detailId, hlt]⟩
      · rw [if_neg hlt] at hfp
        exact Option.noConfusion hfp
  obtain ⟨i0, hi0, hoff0⟩ := hbad
  have hne : items ≠ [] := fun h => by subst h; simp at hi0
  have hraw : (items.map JVal.jint).isEmpty = false := by
    cases items with
    | nil => exact absurd rfl hne
    | cons a l => rfl
  obtain ⟨dx, hdx, _⟩ := mk_detail i0 hi0 hoff0
  cases hchk : orderCheck s.menu items with
  | nil =>
    rw [hchk] at hdx
    simp at hdx
  | cons d0 ds0 =>
    refine ⟨d0 :: ds0, ?_, List.cons_ne_nil _ _, ?_, ?_⟩
    · rw [placeOrder, hraw]
      simp only [Bool.false_eq_true, if_false, pyIntList_map_jint, hchk]
    · have hsub : ((orderCheck s.menu items).map detailId).Sublist
          ((orderCounts items).map Prod.fst) := by
        rw [orderCheck, orderInsufficient]
        refine map_filterMap_sublist _ _ _ ?_ _
        intro p d hfd
        cases hfind : findItem s.menu p.1 with
        | none =>
          rw [hfind] at hfd
          rw [Option.some_inj] at hfd
          rw [← hfd]
          rfl
        | some it =>
          rw [hfind] at hfd
          dsimp only at hfd
          by_cases hlt : it.inventory < (p.2 : Int)
          · rw [if_pos hlt, Option.some_inj] at hfd
            rw [← hfd]
            rfl
          · rw [if_neg hlt] at hfd
            exact Option.noConfusion hfd
      have hfstnodup : ((orderCounts items).map Prod.fst).Nodup := by
        rw [orderCounts, List.map_map]
        have heq : (Prod.fst ∘ fun i : Int => (i, items.count i)) =
            fun i : Int => i := rfl
        rw [heq, List.map_id']
        exact firstOccurrences_nodup items
      rw [hchk] at hsub
      exact hsub.nodup hfstnodup
    · intro i
      constructor
      · rintro ⟨hi, hoff2⟩
        obtain ⟨d, hd, hdid⟩ := mk_detail i hi hoff2
        rw [hchk] at hd
        exact ⟨d, hd, hdid⟩
      · rintro ⟨d, hd, rfl⟩
        exact from_detail d (hchk.symm ▸ hd)

theorem order_insufficient_aborts_and_reports_witness :
    (∃ i ∈ ([2, 1] : List Int), offendingB exampleStore.menu [2, 1] i = true) ∧
    ∃ ds, placeOrder exampleStore "Guest" (.jlist (([2, 1] : List Int).map .jint)) =
        (exampleStore, .errInsufficient ds) ∧
      ds ≠ [] ∧ (ds.map detailId).Nodup ∧
      (∀ i : Int, (i ∈ ([2, 1] : List Int) ∧
          offendingB exampleStore.menu [2, 1] i = true) ↔
        ∃ d ∈ ds, detailId d = i) :=
  ⟨by decide,
   order_insufficient_aborts_and_reports exampleStore "Guest" [2, 1] (by decide)⟩

/-- C7: when every menu item's inventory is non-negative and an order
placement succeeds, every menu item's inventory is still non-negative
afterwards — the pre-check `inventory >= quantity` keeps decrements from
driving any inventory below zero. -/
theorem order_success_preserves_nonneg_inventory (s : Store) (nm : String)
    (v : JVal) (t : ℚ)
    (hnodup : (s.menu.map MenuItem.id).Nodup)
    (hpos : ∀ it ∈ s.menu, 0 ≤ it.inventory)
    (hok : (placeOrder s nm v).2 = .ok t) :
    ∀ it ∈ (placeOrder s nm v).1.menu, 0 ≤ it.inventory := by
  cases v with
  | jnull => simp [placeOrder] at hok
  | jbool b => simp [placeOrder] at hok
  | jint n => simp [placeOrder] at hok
  | jnum q => simp [placeOrder] at hok
  | jstr str => simp [placeOrder] at hok
  | jlist l =>
    by_cases hemp : l.isEmpty
    · intro it hit
      have hmenu : (placeOrder s nm (.jlist l)).1.menu = s.menu := by
        simp [placeOrder, hemp]
      rw [hmenu] at hit
      exact hpos it hit
    · cases hpl : pyIntList l with
      | none => simp [placeOrder, hemp, hpl] at hok
      | some items =>
        cases hchk : orderCheck s.menu items with
        | cons d ds => simp [placeOrder, hemp, hpl, hchk] at hok
        | nil =>
          have hmenu : (placeOrder s nm (.jlist l)).1.menu =
              s.menu.map (fun it =>
                { it with inventory :=
                    it.inventory - (qtySum it.id (orderCounts items) : Int) }) := by
            simp [placeOrder, hemp, hpl, hchk, orderCommit, applyDecrements_eq]
          intro it hit
          rw [hmenu] at hit
          obtain ⟨x, hx, rfl⟩ := List.mem_map.mp hit
          simp only [qtySum_orderCounts]
          by_cases hin : x.id ∈ items
          · have hcnt : (x.id, items.count x.id) ∈ orderCounts items :=
              List.mem_map.mpr ⟨x.id, (mem_firstOccurrences x.id items).mpr hin, rfl⟩
            have hfind : findItem s.menu x.id = some x :=
              findItem_of_mem_nodup s.menu x hnodup hx
            rw [orderCheck, orderInsufficient, List.filterMap_eq_nil_iff] at hchk
            have hnone := hchk _ hcnt
            simp only [hfind] at hnone
            rw [ite_eq_right_iff] at hnone
            by_cases hlt : x.inventory < (items.count x.id : Int)
            · exact absurd (hnone hlt) (by simp)
            · show 0 ≤ x.inventory - (items.count x.id : Int)
              omega
          · show 0 ≤ x.inventory - (items.count x.id : Int)
            rw [List.count_eq_zero_of_not_mem hin]
            simpa using hpos x hx

theorem order_success_preserves_nonneg_inventory_witness :
    ((exampleStore.menu.map MenuItem.id).Nodup ∧
      (∀ it ∈ exampleStore.menu, 0 ≤ it.inventory) ∧
      (placeOrder exampleStore "Guest" (.jlist [.jint 1])).2 =
        .ok (orderTotal exampleStore.menu (orderCounts [1]))) ∧
    ∀ it ∈ (placeOrder exampleStore "Guest" (.jlist [.jint 1])).1.menu,
      0 ≤ it.inventory := by
  have h2 : orderCheck exampleStore.menu [1] = [] := by
    norm_num [orderCheck, orderInsufficient, orderCounts, firstOccurrences,
      findItem, exampleStore, List.count_cons, List.count_nil,
      List.filterMap_cons, List.filterMap_nil]
  have hok : (placeOrder exampleStore "Guest" (.jlist [.jint 1])).2 =
      .ok (orderTotal exampleStore.menu (orderCounts [1])) := by
    rw [placeOrder]
    rw [show pyIntList [JVal.jint 1] = some [1] from rfl]
    simp only [List.isEmpty_cons, Bool.false_eq_true, if_false, h2]
    rfl
  exact ⟨⟨by decide, by decide, hok⟩,
    order_success_preserves_nonneg_inventory exampleStore "Guest" (.jlist [.jint 1]) _
      (by decide) (by decide) hok⟩

/-- C5 (amended): a non-list items value is rejected with a validation
error, and a non-empty items list containing an entry that Python's
`int(...)` cannot convert (null, a nested list, a non-numeric string) is
rejected with a validation error; in both cases the store is unchanged.
Entries that `int(...)` accepts — including numeric strings, floats and
booleans — are normalised to integers rather than rejected. -/
theorem order_items_validation (s : Store) (nm : String) (v : JVal) :
    ((∀ l, v ≠ .jlist l) → placeOrder s nm v = (s, .errItemsNotList)) ∧
    (∀ l, v = .jlist l → l ≠ [] → (∃ x ∈ l, pyInt x = none) →
      placeOrder s nm v = (s, .errItemsNotInts)) := by
  constructor
  · intro h
    cases v with
    | jlist l => exact absurd rfl (h l)
    | jnull => rfl
    | jbool b => rfl
    | jint n => rfl
    | jnum q => rfl
    | jstr str => rfl
  · rintro l rfl hne ⟨x, hx, hnone⟩
    have hraw : l.isEmpty = false := by
      cases l with
      | nil => exact absurd rfl hne
      | cons a t => rfl
    rw [placeOrder, hraw]
    simp only [Bool.false_eq_true, if_false, pyIntList_eq_none l x hx hnone]

theorem order_items_validation_witness :
    ((∀ l, (JVal.jnull) ≠ .jlist l) ∧
      placeOrder exampleStore "Guest" .jnull = (exampleStore, .errItemsNotList)) ∧
    ((JVal.jlist [.jnull] = .jlist [.jnull]) ∧ ([(JVal.jnull)] ≠ []) ∧
      (∃ x ∈ [(JVal.jnull)], pyInt x = none) ∧
      placeOrder exampleStore "Guest" (.jlist [.jnull]) =
        (exampleStore, .errItemsNotInts)) :=
  ⟨⟨fun _ h => JVal.noConfusion h,
    (order_items_validation exampleStore "Guest" .jnull).1
      (fun _ h => JVal.noConfusion h)⟩,
   ⟨rfl, fun h => List.noConfusion h, ⟨.jnull, List.mem_singleton.mpr rfl, rfl⟩,
    (order_items_validation exampleStore "Guest" (.jlist [.jnull])).2
      [.jnull] rfl (fun h => List.noConfusion h)
      ⟨.jnull, List.mem_singleton.mpr rfl, rfl⟩⟩⟩

/-- C5 fails as stated: the items entry `"1"` is a JSON string, not an
integer, yet the order is not rejected — `int("1")` normalises it to the id
1, Espresso's inventory is decremented from 20 to 19, and an order record
for id sequence `[1]` with total 2.50 is inserted with a success response. -/
theorem order_string_item_accepted :
    (∀ n : Int, (JVal.jstr "1") ≠ .jint n) ∧
    placeOrder exampleStore "Guest" (.jlist [.jstr "1"]) =
      (⟨[⟨1, "Espresso", 5/2, 19⟩], 2, [⟨1, "Guest", [1], 5/2⟩], 2⟩,
       .ok (5/2)) := by
  refine ⟨fun n h => JVal.noConfusion h, ?_⟩
  have h1 : pyIntList [.jstr "1"] = some [1] := by decide
  have h2 : orderCheck exampleStore.menu [1] = [] := by
    norm_num [orderCheck, orderInsufficient, orderCounts, firstOccurrences,
      findItem, exampleStore, List.count_cons, List.count_nil]
  rw [placeOrder]
  simp only [List.isEmpty_cons, Bool.false_eq_true, if_false, h1, h2]
  rw [orderCommit]
  norm_num [orderTotal, orderCounts, firstOccurrences, priceOf, findItem,
    applyDecrements, exampleStore]

theorem findItem_map_preserving (menu : List MenuItem) (g : MenuItem → MenuItem)
    (hid : ∀ x, (g x).id = x.id) (i : Int) :
    findItem (menu.map g) i = (findItem menu i).map g := by
  rw [findItem, findItem, List.find?_map]
  have hfun : ((fun it : MenuItem => it.id == i) ∘ g) =
      (fun it : MenuItem => it.id == i) := by
    funext x
    simp [Function.comp, hid]
  rw [hfun]

/-- C6: updating an existing menu item with any non-empty, well-parsed
subset of name, price and inventory sets exactly the supplied fields and
keeps every absent field at its previous value; a request supplying no
field at all is a validation error, and a request with fields against an
unknown id is a not-found error (with the store unchanged in both error
cases). -/
theorem menu_update_subset_fields (s : Store) (itemId : Int) (req : UpdateReq)
    (priceOpt : Option ℚ) (invOpt : Option Int)
    (hp : parseOptField pyFloat req.price = some priceOpt)
    (hi : parseOptField pyInt req.inventory = some invOpt) :
    (req.name = none ∧ priceOpt = none ∧ invOpt = none →
      api_menu_put s itemId req = (s, .errNoFields)) ∧
    (¬(req.name = none ∧ priceOpt = none ∧ invOpt = none) →
      (findItem s.menu itemId = none →
        api_menu_put s itemId req = (s, .errNotFound)) ∧
      (∀ it, findItem s.menu itemId = some it →
        api_menu_put s itemId req =
          ({ s with menu := s.menu.map (fun x =>
              if x.id = itemId then
                { x with name := req.name.getD x.name,
                         price := priceOpt.getD x.price,
                         inventory := invOpt.getD x.inventory }
              else x) },
           .ok { it with name := req.name.getD it.name,
                         price := priceOpt.getD it.price,
                         inventory := invOpt.getD it.inventory }))) := by
  have hidp : ∀ x : MenuItem,
      (if x.id = itemId then
        ({ x with name := req.name.getD x.name, price := priceOpt.getD x.price,
                  inventory := invOpt.getD x.inventory } : MenuItem)
       else x).id = x.id := by
    intro x
    by_cases hx : x.id = itemId <;> simp [hx]
  constructor
  · intro h
    simp only [api_menu_put, hp, hi]
    rw [if_pos h]
  · intro h
    constructor
    · intro hf
      have hfm : findItem (s.menu.map (fun x =>
          if x.id = itemId then
            ({ x with name := req.name.getD x.name, price := priceOpt.getD x.price,
                      inventory := invOpt.getD x.inventory } : MenuItem)
          else x)) itemId = none := by
        rw [findItem_map_preserving _ _ hidp, hf]
        rfl
      have hmapid : s.menu.map (fun x =>
          if x.id = itemId then
            ({ x with name := req.name.getD x.name, price := priceOpt.getD x.price,
                      inventory := invOpt.getD x.inventory } : MenuItem)
          else x) = s.menu := by
        have hgx : ∀ x ∈ s.menu, (if x.id = itemId then
            ({ x with name := req.name.getD x.name, price := priceOpt.getD x.price,
                      inventory := invOpt.getD x.inventory } : MenuItem)
           else x) = x := by
          intro x hx
          rw [findItem, List.find?_eq_none] at hf
          have hne := hf x hx
          simp only [beq_iff_eq] at hne
          simp [hne]
        rw [List.map_congr_left hgx, List.map_id']
      simp only [api_menu_put, hp, hi]
      rw [if_neg h]
      simp only [hfm, hmapid, hf]
    · intro it hf
      have hit : it.id = itemId := (findItem_eq_some _ _ _ hf).2
      have hfm : findItem (s.menu.map (fun x =>
          if x.id = itemId then
            ({ x with name := req.name.getD x.name, price := priceOpt.getD x.price,
                      inventory := invOpt.getD x.inventory } : MenuItem)
          else x)) itemId =
          some { it with name := req.name.getD it.name,
                         price := priceOpt.getD it.price,
                         inventory := invOpt.getD it.inventory } := by
        rw [findItem_map_preserving _ _ hidp, hf]
        simp [hit]
      simp only [api_menu_put, hp, hi]
      rw [if_neg h]
      simp only [hfm]

theorem menu_update_subset_fields_witness :
    (parseOptField pyFloat (some (.jnum (7/2))) = some (some (7/2)) ∧
      parseOptField pyInt none = some none ∧
      findItem exampleStore.menu 1 = some ⟨1, "Espresso", 5/2, 20⟩) ∧
    api_menu_put exampleStore 1 ⟨none, some (.jnum (7/2)), none⟩ =
      (⟨[⟨1, "Espresso", 7/2, 20⟩], 2, [], 1⟩, .ok ⟨1, "Espresso", 7/2, 20⟩) :=
  ⟨⟨rfl, rfl, rfl⟩,
   (((menu_update_subset_fields exampleStore 1 ⟨none, some (.jnum (7/2)), none⟩
        (some (7/2)) none rfl rfl).2 (by simp)).2
      ⟨1, "Espresso", 5/2, 20⟩ rfl).trans
     (by norm_num [exampleStore])⟩

/-- C9 (amended): menu creation rejects a missing or empty name, so
creation preserves non-emptiness of every stored name, as do deletion and
any update that omits the name field or supplies a non-empty one; the
update handler, however, applies a supplied name verbatim without
validating it, so an update carrying an empty name stores the empty name
and the invariant is not preserved by every operation. -/
theorem menu_names_nonempty_preserved (s : Store) (h : namesNonempty s) :
    (∀ req, namesNonempty (api_menu_post s req).1) ∧
    (∀ itemId req, (req.name = none ∨ ∃ nm, req.name = some nm ∧ nm ≠ "") →
      namesNonempty (api_menu_put s itemId req).1) ∧
    (∀ itemId, namesNonempty (api_menu_delete s itemId).1) := by
  refine ⟨?_, ?_, ?_⟩
  · intro req
    rw [api_menu_post]
    cases hpf : pyFloat (req.price.getD (.jint 0)) with
    | none => exact h
    | some price =>
      cases hpi : pyInt (req.inventory.getD (.jint 0)) with
      | none => exact h
      | some inv =>
        cases hn : req.name with
        | none => exact h
        | some nm =>
          dsimp only
          by_cases hnm : nm = ""
          · rw [if_pos hnm]
            exact h
          · rw [if_neg hnm]
            intro it hit
            rcases List.mem_append.mp hit with hmem | hmem
            · exact h it hmem
            · rw [List.mem_singleton.mp hmem]
              exact hnm
  · intro itemId req hname
    rw [api_menu_put]
    cases hp : parseOptField pyFloat req.price with
    | none => exact h
    | some priceOpt =>
      cases hi : parseOptField pyInt req.inventory with
      | none => exact h
      | some invOpt =>
        dsimp only
        by_cases hno : req.name = none ∧ priceOpt = none ∧ invOpt = none
        · rw [if_pos hno]
          exact h
        · rw [if_neg hno]
          have hpres : namesNonempty
              ({ s with menu := s.menu.map (fun x =>
                  if x.id = itemId then
                    { x with name := req.name.getD x.name,
                             price := priceOpt.getD x.price,
                             inventory := invOpt.getD x.inventory }
                  else x) } : Store) := by
            intro it hit
            obtain ⟨x, hx, rfl⟩ := List.mem_map.mp hit
            by_cases hxid : x.id = itemId
            · rcases hname with hn | ⟨nm, hn, hnm⟩
              · simp only [hxid, if_true, hn, Option.getD_none]
                exact h x hx
              · simp only [hxid, if_true, hn, Option.getD_some]
                exact hnm
            · simp only [if_neg hxid]
              exact h x hx
          cases findItem (s.menu.map (fun x =>
              if x.id = itemId then
                { x with name := req.name.getD x.name,
                         price := priceOpt.getD x.price,
                         inventory := invOpt.getD x.inventory }
              else x)) itemId with
          | none => exact hpres
          | some row => exact hpres
  · intro itemId
    rw [api_menu_delete]
    cases findItem s.menu itemId with
    | none => exact h
    | some x =>
      intro it hit
      exact h it (List.mem_filter.mp hit).1

theorem namesNonempty_exampleStore : namesNonempty exampleStore := by
  show ∀ it ∈ exampleStore.menu, it.name ≠ ""
  decide

theorem menu_names_nonempty_preserved_witness :
    namesNonempty exampleStore ∧
    namesNonempty (api_menu_post exampleStore ⟨some "Mocha", none, none⟩).1 ∧
    namesNonempty (api_menu_put exampleStore 1 ⟨some "Mocha", none, none⟩).1 ∧
    namesNonempty (api_menu_delete exampleStore 1).1 :=
  ⟨namesNonempty_exampleStore,
   (menu_names_nonempty_preserved exampleStore namesNonempty_exampleStore).1 _,
   (menu_names_nonempty_preserved exampleStore namesNonempty_exampleStore).2.1 1 _
     (Or.inr ⟨"Mocha", rfl, by decide⟩),
   (menu_names_nonempty_preserved exampleStore namesNonempty_exampleStore).2.2 1⟩

/-- C9 fails as stated: updating Espresso with an empty name succeeds and
stores the empty name — the update handler never validates name
non-emptiness, so the invariant is not preserved by every Menu Service
operation. -/
theorem menu_update_stores_empty_name :
    namesNonempty exampleStore ∧
    (api_menu_put exampleStore 1 ⟨some "", none, none⟩).1.menu =
      [⟨1, "", 5/2, 20⟩] ∧
    ¬ namesNonempty (api_menu_put exampleStore 1 ⟨some "", none, none⟩).1 := by
  have hmenu : (api_menu_put exampleStore 1 ⟨some "", none, none⟩).1.menu =
      [⟨1, "", 5/2, 20⟩] := rfl
  refine ⟨namesNonempty_exampleStore, hmenu, fun hcon => ?_⟩
  have hx : (⟨1, "", 5/2, 20⟩ : MenuItem) ∈
      (api_menu_put exampleStore 1 ⟨some "", none, none⟩).1.menu := by
    rw [hmenu]
    exact List.mem_singleton.mpr rfl
  exact hcon _ hx rfl

/-- C10: creating a menu item with a valid non-empty name succeeds when the
price key, the inventory key, or both are absent, the absent field
defaulting to 0 (`data.get(key, 0)`), while a supplied parseable value is
stored as given. -/
theorem menu_create_absent_fields_default (s : Store) (nm : String)
    (h : nm ≠ "") :
    (api_menu_post s ⟨some nm, none, none⟩ =
      ({ s with menu := s.menu ++ [⟨s.nextMenuId, nm, 0, 0⟩],
                nextMenuId := s.nextMenuId + 1 },
       .ok ⟨s.nextMenuId, nm, 0, 0⟩)) ∧
    (∀ v q, pyFloat v = some q →
      api_menu_post s ⟨some nm, some v, none⟩ =
        ({ s with menu := s.menu ++ [⟨s.nextMenuId, nm, q, 0⟩],
                  nextMenuId := s.nextMenuId + 1 },
         .ok ⟨s.nextMenuId, nm, q, 0⟩)) ∧
    (∀ v k, pyInt v = some k →
      api_menu_post s ⟨some nm, none, some v⟩ =
        ({ s with menu := s.menu ++ [⟨s.nextMenuId, nm, 0, k⟩],
                  nextMenuId := s.nextMenuId + 1 },
         .ok ⟨s.nextMenuId, nm, 0, k⟩)) := by
  refine ⟨?_, ?_, ?_⟩
  · simp only [api_menu_post, Option.getD, pyFloat, pyInt, if_neg h]
    try norm_num
  · intro v q hv
    simp only [api_menu_post, Option.getD, hv, pyInt, if_neg h]
    try norm_num
  · intro v k hv
    simp only [api_menu_post, Option.getD, pyFloat, hv, if_neg h]
    try norm_num

theorem menu_create_absent_fields_default_witness :
    (("Mocha" : String) ≠ "") ∧
    api_menu_post exampleStore ⟨some "Mocha", none, none⟩ =
      ({ exampleStore with
          menu := exampleStore.menu ++ [⟨exampleStore.nextMenuId, "Mocha", 0, 0⟩],
          nextMenuId := exampleStore.nextMenuId + 1 },
       .ok ⟨exampleStore.nextMenuId, "Mocha", 0, 0⟩) :=
  ⟨by decide,
   (menu_create_absent_fields_default exampleStore "Mocha" (by decide)).1⟩

/-- C4: the exactly-one-success requirement is violated by the code, which
reads, checks and writes without transaction isolation.  With one unit of
Espresso left, two order placements that both run the read-and-validate
phase against the same committed snapshot before either commits (the
interleaving two concurrent requests on separate connections produce) both
pass validation and both commit their relative decrement: two orders are
recorded and Espresso ends at inventory -1.  Run strictly one after the
other, the second order is instead rejected with insufficient_inventory —
the behaviour the claim demands for the concurrent run as well. -/
theorem concurrent_orders_both_succeed :
    orderCheck lastUnitStore.menu [1] = [] ∧
    ((orderCommit lastUnitStore.menu
        ((orderCommit lastUnitStore.menu lastUnitStore "Alice" [1]).1)
        "Bob" [1]).1.orders.length = 2 ∧
      (findItem (orderCommit lastUnitStore.menu
          ((orderCommit lastUnitStore.menu lastUnitStore "Alice" [1]).1)
          "Bob" [1]).1.menu 1).map MenuItem.inventory = some (-1)) ∧
    (placeOrder ((placeOrder lastUnitStore "Alice" (.jlist [.jint 1])).1) "Bob"
        (.jlist [.jint 1])).2 =
      .errInsufficient [.insufficientStock "Espresso" 1 0] := by
  refine ⟨?_, ⟨?_, ?_⟩, ?_⟩ <;>
    norm_num [orderCheck, orderInsufficient, orderCounts, firstOccurrences,
      orderCommit, orderTotal, applyDecrements, priceOf, findItem, placeOrder,
      pyIntList, pyInt, lastUnitStore, List.count_cons, List.count_nil,
      List.filterMap_cons, List.filterMap_nil]
